import Mathlib

/-!
Shallow embedding of the module-resolution core of `rollup-plugin-dts`
(`src/index.ts`): file-kind classification, the module resolver `getModule`,
the transform decision machine `transform`, and the import classifier
`resolveId`.  External collaborators (the TypeScript compiler API, the file
system, the inner declaration-bundling transform) are abstracted into an
environment record `Env`; parts of the repository that are not under `src/`
(`helpers.ts`, `program.ts`, `transform/index.ts`) are modelled from the spec
and marked as such.
-/

namespace RollupDts

/-- Suffix test on strings, used to model the file-extension regexes of the
source (`RegExp.test` against an end-anchored extension pattern). -/
def hasSuffix (s suffix : String) : Bool :=
  suffix.data.isSuffixOf s.data

/-- The `TS_EXTENSIONS` pattern of `src/index.ts`:
`/\.([cm]ts|[tj]sx?)$/`, i.e. the file name ends in `.cts`, `.mts`, `.tsx`,
`.jsx`, `.ts` or `.js`. -/
def tsTest (fileName : String) : Bool :=
  hasSuffix fileName ".cts" || hasSuffix fileName ".mts" ||
  hasSuffix fileName ".tsx" || hasSuffix fileName ".jsx" ||
  hasSuffix fileName ".ts" || hasSuffix fileName ".js"

/-- Modelled from the spec: the declaration-file naming pattern
(`DTS_EXTENSIONS` of `helpers.ts`, which is not under `src/`): a declaration
file ends in `.d.ts`, `.d.mts` or `.d.cts`. -/
def dtsTest (fileName : String) : Bool :=
  hasSuffix fileName ".d.ts" || hasSuffix fileName ".d.mts" ||
  hasSuffix fileName ".d.cts"

/-- Modelled from the spec: the JSON extension pattern (`JSON_EXTENSIONS` of
`helpers.ts`, which is not under `src/`). -/
def jsonTest (fileName : String) : Bool :=
  hasSuffix fileName ".json"

/-- Modelled from the spec: `trimExtension` of `helpers.ts` (not under
`src/`), dropping a recognised source-file extension. -/
def trimExtension (fileName : String) : String :=
  if hasSuffix fileName ".tsx" || hasSuffix fileName ".jsx" ||
     hasSuffix fileName ".cts" || hasSuffix fileName ".mts" then
    fileName.dropRight 4
  else if hasSuffix fileName ".ts" || hasSuffix fileName ".js" then
    fileName.dropRight 3
  else
    fileName

/-- Modelled from the spec: `getDeclarationId` of `helpers.ts` (not under
`src/`) derives the declaration identity of a source file: the same logical
file reinterpreted as a declaration file. -/
def getDeclarationId (fileName : String) : String :=
  trimExtension fileName ++ ".d.ts"

/-- A `ts.SourceFile` at its interface boundary: its name and its full text
(`getFullText`). -/
structure SourceFile where
  fileName : String
  fullText : String
deriving DecidableEq, Repr

/-- Diagnostic categories of the TypeScript compiler API
(`ts.DiagnosticCategory`). -/
inductive DiagnosticCategory where
  | warning
  | error
  | suggestion
  | message
deriving DecidableEq, Repr

/-- A compiler diagnostic at its interface boundary: category and message
text. -/
structure Diagnostic where
  category : DiagnosticCategory
  text : String
deriving DecidableEq, Repr

/-- The outcome of `ts.Program.emit` for one source file: whether the emit
was skipped, the diagnostics it reported, and the declaration text passed to
the write callback (absent when the callback was never invoked). -/
structure EmitOutcome where
  emitSkipped : Bool
  diagnostics : List Diagnostic
  written : Option String

/-- A `ts.Program` at the interface boundary the source uses: its root file
names, `getSourceFile`, `isSourceFileFromExternalLibrary` (keyed here by the
file name of the source file the code passes in), and `emit`. -/
structure TsProgram where
  rootFileNames : List String
  getSourceFile : String → Option SourceFile
  isSourceFileFromExternalLibrary : String → Bool
  emit : SourceFile → EmitOutcome

/-- The data that a freshly created compilation unit exposes for member
lookup, external-library classification and emission. -/
structure ProgramData where
  getSourceFile : String → Option SourceFile
  isSourceFileFromExternalLibrary : String → Bool
  emit : SourceFile → EmitOutcome

/-- A `ts.resolveModuleName` result at its interface boundary: the resolved
file, whether it is an external-library import, and the package name of its
`packageId` when present. -/
structure ResolvedTsModule where
  resolvedFileName : String
  isExternalLibraryImport : Bool
  packageId : Option String
deriving DecidableEq, Repr

/-- The external collaborators of the core: the file system
(`ts.sys.fileExists`), program creation, module-name resolution and path
resolution.  `programFor` gives, for each root file, the data of the program
that `createProgram` would build for it under the session's fixed compiler
options. -/
structure Env where
  fileExists : String → Bool
  programFor : String → ProgramData
  resolveModuleName : String → String → Option ResolvedTsModule
  pathResolve : String → String

/-- Modelled from the spec: `createProgram` of `program.ts` (not under
`src/`) builds one compilation unit rooted at the single requested file;
member lookup, external classification and emission come from the
environment's data for that root. -/
def createProgram (env : Env) (fileName : String) : TsProgram :=
  { rootFileNames := [fileName]
    getSourceFile := (env.programFor fileName).getSourceFile
    isSourceFileFromExternalLibrary :=
      (env.programFor fileName).isSourceFileFromExternalLibrary
    emit := (env.programFor fileName).emit }

/-- The resolved options the plugin context carries (`resolveDefaultOptions`;
compiler options and tsconfig path are absorbed into `Env`). -/
structure ResolvedOptions where
  respectExternal : Bool
  includeExternal : List String
deriving DecidableEq, Repr

/-- The `DtsPluginContext` of `src/index.ts`: the registered entry points,
the pool of programs, and the resolved options. -/
structure DtsPluginContext where
  entries : List String
  programs : List TsProgram
  resolvedOptions : ResolvedOptions

/-- The `ResolvedModule` record of `src/index.ts`: declaration/source text,
optional originating source file, optional owning program. -/
structure ResolvedModule where
  code : String
  source : Option SourceFile
  program : Option TsProgram

/-- The `programs.find(...)` search inside `getModule`: an entry point
matches only a program that has it among its root files; any other file
matches a program that contains it as a source file not contributed by an
external library. -/
def findExistingProgram (entries : List String) (programs : List TsProgram)
    (fileName : String) : Option TsProgram :=
  programs.find? fun p =>
    if entries.contains fileName then
      p.rootFileNames.contains fileName
    else
      match p.getSourceFile fileName with
      | some _ => !p.isSourceFileFromExternalLibrary fileName
      | none => false

/-- The record `getModule` returns when it serves a file from a program:
`{ code: source?.getFullText(), source, program }` (an absent source file
stands for `undefined` text, modelled as the empty string). -/
def moduleFromProgram (p : TsProgram) (fileName : String) : ResolvedModule :=
  { code := ((p.getSourceFile fileName).map SourceFile.fullText).getD ""
    source := p.getSourceFile fileName
    program := some p }

/-- The external-library test of `getModule`'s fast path: some existing
program contains the file as a source file from an external library. -/
def someProgramHasExternal (programs : List TsProgram) (fileName : String) : Bool :=
  programs.any fun p =>
    match p.getSourceFile fileName with
    | some _ => p.isSourceFileFromExternalLibrary fileName
    | none => false

/-- The module resolver `getModule` of `src/index.ts` (debug logging and the
diagnostics counters are observability only and are omitted): zero-program
fast path, existing-program search, external-library fast path, new-program
creation, not-found.  Returns the resolution result together with the
(possibly grown) context. -/
def getModule (env : Env) (ctx : DtsPluginContext) (fileName code : String) :
    Option ResolvedModule × DtsPluginContext :=
  if ctx.programs.isEmpty && dtsTest fileName then
    (some { code := code, source := none, program := none }, ctx)
  else
    match findExistingProgram ctx.entries ctx.programs fileName with
    | some p => (some (moduleFromProgram p fileName), ctx)
    | none =>
      if env.fileExists fileName then
        if !ctx.programs.isEmpty && dtsTest fileName &&
            someProgramHasExternal ctx.programs fileName then
          (some { code := code, source := none, program := none }, ctx)
        else
          let newProgram := createProgram env fileName
          (some (moduleFromProgram newProgram fileName),
           { ctx with programs := ctx.programs ++ [newProgram] })
      else
        (none, ctx)

/-- Modelled from the spec: `ts.formatDiagnostics` (external to the
repository) renders the full diagnostic text that is surfaced to the user. -/
def formatDiagnostics (ds : List Diagnostic) : String :=
  String.intercalate "\n" (ds.map Diagnostic.text)

/-- The strategies of the transform decision machine, for recording which
branch handled a requested file. -/
inductive Strategy where
  | handleDts
  | treatAsDts
  | generate
deriving DecidableEq, Repr

/-- The observable outcome of one transform invocation.  `output text key`
records the declaration text forwarded to the (external, out-of-scope)
bundling transform and the identity it is keyed by; the spec models that
transform as total, so forwarding is the success result.  `fatal` is the
`this.error` abort carrying the logged diagnostic text and the error
message.  `skip` is the `null` return. -/
inductive TransformResult where
  | skip
  | output (text : String) (forId : String)
  | fatal (logged : String) (message : String)
deriving DecidableEq, Repr

/-- The `handleDtsFile` closure of the `transform` hook: resolve the file
under its own identity and forward the resolved text keyed by it. -/
def handleDtsFile (env : Env) (ctx : DtsPluginContext) (id code : String) :
    TransformResult × DtsPluginContext :=
  match getModule env ctx id code with
  | (some m, ctx') => (.output m.code id, ctx')
  | (none, ctx') => (.skip, ctx')

/-- The `treatTsAsDts` closure of the `transform` hook: resolve the file
under its derived declaration identity and forward the resolved text keyed
by that identity. -/
def treatTsAsDts (env : Env) (ctx : DtsPluginContext) (id code : String) :
    TransformResult × DtsPluginContext :=
  let declarationId := getDeclarationId id
  match getModule env ctx declarationId code with
  | (some m, ctx') => (.output m.code declarationId, ctx')
  | (none, ctx') => (.skip, ctx')

/-- The `generateDts` closure of the `transform` hook: resolve the file,
require source and program, emit declarations; on a skipped emit with
error-category diagnostics, log their text and raise a fatal error;
otherwise return what the emit callback produced (or `null` when the
callback never ran). -/
def generateDts (env : Env) (ctx : DtsPluginContext) (id code : String) :
    TransformResult × DtsPluginContext :=
  match getModule env ctx id code with
  | (some m, ctx') =>
    match m.source, m.program with
    | some src, some prog =>
      let out := prog.emit src
      let declarationId := getDeclarationId id
      let generated : TransformResult :=
        match out.written with
        | some text => .output text declarationId
        | none => .skip
      if out.emitSkipped then
        let errors := out.diagnostics.filter fun d =>
          d.category == DiagnosticCategory.error
        if !errors.isEmpty then
          (.fatal (formatDiagnostics errors)
            "Failed to compile. Check the logs above.", ctx')
        else
          (generated, ctx')
      else
        (generated, ctx')
    | _, _ => (.skip, ctx')
  | (none, ctx') => (.skip, ctx')

/-- The `transform` hook of `src/index.ts` (watch-file reporting and debug
logging are observability only and are omitted): skip unrecognised
extensions, handle declaration files as-is, generate declarations for JSON,
and for source files first treat them as declarations, falling back to
generation when that resolves to nothing.  The third component records the
strategies the invocation attempted, in order. -/
def transform (env : Env) (ctx : DtsPluginContext) (id code : String) :
    TransformResult × DtsPluginContext × List Strategy :=
  if !tsTest id && !jsonTest id then
    (.skip, ctx, [])
  else if dtsTest id then
    ((handleDtsFile env ctx id code).1, (handleDtsFile env ctx id code).2, [.handleDts])
  else if jsonTest id then
    ((generateDts env ctx id code).1, (generateDts env ctx id code).2, [.generate])
  else
    let treated := treatTsAsDts env ctx id code
    if treated.1 = .skip then
      ((generateDts env treated.2 id code).1, (generateDts env treated.2 id code).2,
       [.treatAsDts, .generate])
    else
      (treated.1, treated.2, [.treatAsDts])

/-- The result a serving strategy (`handleDtsFile`, `treatTsAsDts`) produces
from a module-resolver answer: forward the resolved text keyed by `key`, or
nothing when the resolver reported not-found. -/
def serveResult (key : String) : Option ResolvedModule → TransformResult
  | some m => .output m.code key
  | none => .skip

/-- The result `generateDts` produces from a module-resolver answer for the
file `id`: emission through the owning program, fatal on a skipped emit with
error-category diagnostics. -/
def genResult (id : String) : Option ResolvedModule → TransformResult
  | some m =>
    match m.source, m.program with
    | some src, some prog =>
      let out := prog.emit src
      let generated : TransformResult :=
        match out.written with
        | some text => .output text (getDeclarationId id)
        | none => .skip
      if out.emitSkipped then
        let errors := out.diagnostics.filter fun d =>
          d.category == DiagnosticCategory.error
        if !errors.isEmpty then
          .fatal (formatDiagnostics errors) "Failed to compile. Check the logs above."
        else
          generated
      else
        generated
    | _, _ => .skip
  | none => .skip

/-- The results the `resolveId` hook can report to the host: an entry-point
registration (no importer), an unresolved specifier (host default
resolution applies), or a resolved identity with its external flag. -/
inductive ResolveIdResult where
  | entryRegistered
  | unresolved
  | resolved (id : String) (external : Bool)
deriving DecidableEq, Repr

/-- The force-include condition of `resolveId`: the module is an
external-library import whose package id names a package listed in
`includeExternal`. -/
def forceInclude (opts : ResolvedOptions) (rm : ResolvedTsModule) : Bool :=
  rm.isExternalLibraryImport &&
    match rm.packageId with
    | some name => opts.includeExternal.contains name
    | none => false

/-- The `resolveId` hook of `src/index.ts`: with no importer, register the
entry point; otherwise normalise the importer's separators, resolve the
specifier through the TypeScript resolver (tsconfig-dependent compiler
options are absorbed into `Env.resolveModuleName`), and classify in fixed
order: force-include, default-external, resolved identity; an unresolvable
specifier is reported as unresolved. -/
def resolveId (env : Env) (ctx : DtsPluginContext) (source : String)
    (importer : Option String) : ResolveIdResult × DtsPluginContext :=
  match importer with
  | none =>
    (.entryRegistered,
     { ctx with entries := ctx.entries ++ [env.pathResolve source] })
  | some imp =>
    let imp := imp.map fun c => if c = '\\' then '/' else c
    match env.resolveModuleName source imp with
    | none => (.unresolved, ctx)
    | some rm =>
      if forceInclude ctx.resolvedOptions rm then
        (.resolved (env.pathResolve rm.resolvedFileName) false, ctx)
      else if !ctx.resolvedOptions.respectExternal && rm.isExternalLibraryImport then
        (.resolved source true, ctx)
      else
        (.resolved (env.pathResolve rm.resolvedFileName) false, ctx)

/-- Folding the module resolver over a list of requests, threading the
context: the session-level view of repeated resolution. -/
def resolveAll (env : Env) (ctx : DtsPluginContext)
    (files : List (String × String)) : DtsPluginContext :=
  files.foldl (fun c fc => (getModule env c fc.1 fc.2).2) ctx

/-- Folding the transform hook over a list of requests, threading the
context: the session-level view of a bundling pass. -/
def transformAll (env : Env) (ctx : DtsPluginContext)
    (reqs : List (String × String)) : DtsPluginContext :=
  reqs.foldl (fun c r => (transform env c r.1 r.2).2.1) ctx

/-- Faithfulness conditions on the abstract compiler environment, each one a
documented property of the real collaborators: a program created from an
existing file contains its root; a program's members are files that exist on
disk; a program's own root is not an external-library member. -/
structure EnvWF (env : Env) : Prop where
  rootHasSource : ∀ f, env.fileExists f = true →
    ((env.programFor f).getSourceFile f).isSome = true
  memberOnDisk : ∀ f g, ((env.programFor f).getSourceFile g).isSome = true →
    env.fileExists g = true
  rootNotExternal : ∀ f,
    (env.programFor f).isSourceFileFromExternalLibrary f = false

/-- The matching rule exactly as the spec words it, for comparison with the
source's `findExistingProgram`: an entry point matches only a unit having it
among its root files; a non-entry file matches a unit containing it as a
member not contributed by an external dependency. -/
def specMatches (entries : List String) (f : String) (p : TsProgram) : Bool :=
  if entries.contains f then
    p.rootFileNames.contains f
  else
    match p.getSourceFile f with
    | some _ => !p.isSourceFileFromExternalLibrary f
    | none => false

/-- A small concrete source file, for witnesses. -/
def wSourceFile (f : String) : SourceFile :=
  { fileName := f, fullText := "export default 1;" }

/-- Default resolved options, for witnesses. -/
def wOpts : ResolvedOptions :=
  { respectExternal := false, includeExternal := [] }

/-- A session context with one registered entry and an empty pool, for
witnesses. -/
def wCtx0 : DtsPluginContext :=
  { entries := ["/a.ts"], programs := [], resolvedOptions := wOpts }

/-- A concrete environment whose only on-disk file is `/a.ts`, satisfying
the faithfulness conditions, for witnesses. -/
def wEnvWf : Env :=
  { fileExists := fun f => f == "/a.ts"
    programFor := fun _ =>
      { getSourceFile := fun g => if g == "/a.ts" then some (wSourceFile g) else none
        isSourceFileFromExternalLibrary := fun _ => false
        emit := fun _ =>
          { emitSkipped := false, diagnostics := [],
            written := some "declare const a: number;" } }
    resolveModuleName := fun _ _ => none
    pathResolve := fun s => s }

/-- A pool context holding the program created for the entry `/a.ts`, for
witnesses. -/
def wCtxA : DtsPluginContext :=
  { entries := ["/a.ts"], programs := [createProgram wEnvWf "/a.ts"],
    resolvedOptions := wOpts }

/-- A concrete error diagnostic, for witnesses. -/
def wDiagErr : Diagnostic :=
  { category := .error, text := "TS2304: Cannot find name." }

/-- A concrete program whose emit is skipped with one error diagnostic, for
witnesses. -/
def wProgErr : TsProgram :=
  { rootFileNames := ["/e.ts"]
    getSourceFile := fun g => if g == "/e.ts" then some (wSourceFile g) else none
    isSourceFileFromExternalLibrary := fun _ => false
    emit := fun _ => { emitSkipped := true, diagnostics := [wDiagErr], written := none } }

/-- A pool context holding the erroring program, for witnesses. -/
def wCtxErr : DtsPluginContext :=
  { entries := [], programs := [wProgErr], resolvedOptions := wOpts }

/-- A concrete program rooted at `/b.ts` that contains the declaration file
`/ext/x.d.ts` as an external-library member, for witnesses. -/
def wProgExt : TsProgram :=
  { rootFileNames := ["/b.ts"]
    getSourceFile := fun g =>
      if g == "/b.ts" || g == "/ext/x.d.ts" then some (wSourceFile g) else none
    isSourceFileFromExternalLibrary := fun g => g == "/ext/x.d.ts"
    emit := fun _ =>
      { emitSkipped := false, diagnostics := [], written := some "" } }

/-- A pool context holding the external-member program, for witnesses. -/
def wCtxExt : DtsPluginContext :=
  { entries := ["/b.ts"], programs := [wProgExt], resolvedOptions := wOpts }

/-- An environment whose only on-disk file is the external declaration file
`/ext/x.d.ts`, for witnesses. -/
def wEnvExt : Env :=
  { fileExists := fun f => f == "/ext/x.d.ts"
    programFor := fun _ =>
      { getSourceFile := fun g => if g == "/ext/x.d.ts" then some (wSourceFile g) else none
        isSourceFileFromExternalLibrary := fun _ => false
        emit := fun _ =>
          { emitSkipped := false, diagnostics := [], written := none } }
    resolveModuleName := fun _ _ => none
    pathResolve := fun s => s }

theorem hasSuffix_iff (s suffix : String) :
    hasSuffix s suffix = true ↔ suffix.data <:+ s.data := by
  simp [hasSuffix, List.isSuffixOf, List.reverse_prefix]

theorem hasSuffix_append (s suffix : String) :
    hasSuffix (s ++ suffix) suffix = true := by
  rw [hasSuffix_iff, String.data_append]
  exact List.suffix_append _ _

theorem hasSuffix_trans {s t u : String} (h : hasSuffix s t = true)
    (hu : u.data <:+ t.data) : hasSuffix s u = true := by
  rw [hasSuffix_iff] at h ⊢
  exact hu.trans h

theorem dtsTest_getDeclarationId (f : String) :
    dtsTest (getDeclarationId f) = true := by
  simp [dtsTest, getDeclarationId, hasSuffix_append]

theorem tsTest_of_dtsTest {f : String} (h : dtsTest f = true) :
    tsTest f = true := by
  simp only [dtsTest, Bool.or_eq_true] at h
  rcases h with (h | h) | h
  · simp [tsTest, hasSuffix_trans h (by decide : (".ts").data <:+ (".d.ts").data)]
  · simp [tsTest, hasSuffix_trans h (by decide : (".mts").data <:+ (".d.mts").data)]
  · simp [tsTest, hasSuffix_trans h (by decide : (".cts").data <:+ (".d.cts").data)]

theorem getDeclarationId_ne {f : String} (h : dtsTest f = false) :
    getDeclarationId f ≠ f := by
  intro heq
  have := dtsTest_getDeclarationId f
  rw [heq, h] at this
  exact Bool.false_ne_true this

theorem getModule_fastpath (env : Env) (ctx : DtsPluginContext) (f code : String)
    (hempty : ctx.programs = []) (hdts : dtsTest f = true) :
    getModule env ctx f code = (some { code := code, source := none, program := none }, ctx) := by
  simp [getModule, hempty, hdts]

theorem getModule_found (env : Env) (ctx : DtsPluginContext) (f code : String)
    (p : TsProgram) (hfound : findExistingProgram ctx.entries ctx.programs f = some p) :
    getModule env ctx f code = (some (moduleFromProgram p f), ctx) := by
  have hne : ctx.programs ≠ [] := by
    intro h
    rw [findExistingProgram, h] at hfound
    simp at hfound
  have hempty : ctx.programs.isEmpty = false := by
    simp [List.isEmpty_iff, hne]
  simp [getModule, hempty, hfound]

theorem getModule_extFastpath (env : Env) (ctx : DtsPluginContext) (f code : String)
    (hfind : findExistingProgram ctx.entries ctx.programs f = none)
    (hex : env.fileExists f = true) (hdts : dtsTest f = true)
    (hne : ctx.programs.isEmpty = false)
    (hext : someProgramHasExternal ctx.programs f = true) :
    getModule env ctx f code = (some { code := code, source := none, program := none }, ctx) := by
  simp [getModule, hfind, hex, hdts, hne, hext]

theorem getModule_create (env : Env) (ctx : DtsPluginContext) (f code : String)
    (hfind : findExistingProgram ctx.entries ctx.programs f = none)
    (hex : env.fileExists f = true)
    (hguard : (ctx.programs.isEmpty && dtsTest f) = false)
    (hnoext : (!ctx.programs.isEmpty && dtsTest f &&
      someProgramHasExternal ctx.programs f) = false) :
    getModule env ctx f code =
      (some (moduleFromProgram (createProgram env f) f),
       { ctx with programs := ctx.programs ++ [createProgram env f] }) := by
  simp [getModule, hfind, hex, hguard, hnoext]

theorem getModule_none_iff (env : Env) (ctx : DtsPluginContext) (f code : String) :
    (getModule env ctx f code).1 = none ↔
      ((ctx.programs.isEmpty && dtsTest f) = false ∧
       findExistingProgram ctx.entries ctx.programs f = none ∧
       env.fileExists f = false) := by
  by_cases hg : (ctx.programs.isEmpty && dtsTest f) = true
  · simp [getModule, hg]
  · rw [Bool.not_eq_true] at hg
    cases hfind : findExistingProgram ctx.entries ctx.programs f with
    | some p => simp [getModule, hg, hfind]
    | none =>
      by_cases hex : env.fileExists f = true
      · by_cases hx : (!ctx.programs.isEmpty && dtsTest f &&
            someProgramHasExternal ctx.programs f) = true
        · simp [getModule, hg, hfind, hex, hx]
        · rw [Bool.not_eq_true] at hx
          simp [getModule, hg, hfind, hex, hx]
      · rw [Bool.not_eq_true] at hex
        simp [getModule, hg, hfind, hex]

theorem getModule_none_eq (env : Env) (ctx : DtsPluginContext) (f code : String)
    (h : (getModule env ctx f code).1 = none) :
    getModule env ctx f code = (none, ctx) := by
  rcases (getModule_none_iff env ctx f code).mp h with ⟨hg, hfind, hex⟩
  simp [getModule, hg, hfind, hex]

theorem getModule_snd_cases (env : Env) (ctx : DtsPluginContext) (f code : String) :
    (getModule env ctx f code).2 = ctx ∨
      (findExistingProgram ctx.entries ctx.programs f = none ∧
       env.fileExists f = true ∧
       getModule env ctx f code =
         (some (moduleFromProgram (createProgram env f) f),
          { ctx with programs := ctx.programs ++ [createProgram env f] })) := by
  by_cases hg : (ctx.programs.isEmpty && dtsTest f) = true
  · left; simp [getModule, hg]
  · rw [Bool.not_eq_true] at hg
    cases hfind : findExistingProgram ctx.entries ctx.programs f with
    | some p => left; simp [getModule, hg, hfind]
    | none =>
      by_cases hex : env.fileExists f = true
      · by_cases hx : (!ctx.programs.isEmpty && dtsTest f &&
            someProgramHasExternal ctx.programs f) = true
        · left; simp [getModule, hg, hfind, hex, hx]
        · rw [Bool.not_eq_true] at hx
          right
          exact ⟨rfl, hex, getModule_create env ctx f code hfind hex hg hx⟩
      · rw [Bool.not_eq_true] at hex
        left; simp [getModule, hg, hfind, hex]

theorem findExistingProgram_append_single (entries : List String)
    (ps : List TsProgram) (p : TsProgram) (f : String) :
    findExistingProgram entries (ps ++ [p]) f =
      (findExistingProgram entries ps f).or (findExistingProgram entries [p] f) := by
  simp [findExistingProgram, List.find?_append]

theorem findExistingProgram_create (env : Env) (hwf : EnvWF env)
    (entries : List String) (f : String) (hex : env.fileExists f = true) :
    findExistingProgram entries [createProgram env f] f = some (createProgram env f) := by
  have h1 := hwf.rootHasSource f hex
  have h3 := hwf.rootNotExternal f
  rw [findExistingProgram]
  by_cases hentry : entries.contains f = true
  · have hmem : f ∈ entries := by simpa using hentry
    simp [List.find?, hmem, createProgram]
  · rw [Bool.not_eq_true] at hentry
    cases hs : (env.programFor f).getSourceFile f with
    | none => rw [hs] at h1; simp at h1
    | some sf => simp [List.find?, hentry, createProgram, hs, h3]

theorem getModule_after_create (env : Env) (hwf : EnvWF env)
    (ctx : DtsPluginContext) (f code : String)
    (hfind : findExistingProgram ctx.entries ctx.programs f = none)
    (hex : env.fileExists f = true) :
    getModule env { ctx with programs := ctx.programs ++ [createProgram env f] } f code =
      (some (moduleFromProgram (createProgram env f) f),
       { ctx with programs := ctx.programs ++ [createProgram env f] }) := by
  apply getModule_found
  show findExistingProgram ctx.entries (ctx.programs ++ [createProgram env f]) f = _
  rw [findExistingProgram_append_single, hfind,
    findExistingProgram_create env hwf ctx.entries f hex]
  rfl

theorem findExistingProgram_create_other (env : Env) (hwf : EnvWF env)
    (entries : List String) (f g : String) (hne : f ≠ g)
    (hex : env.fileExists f = false) :
    findExistingProgram entries [createProgram env g] f = none := by
  rw [findExistingProgram]
  by_cases hentry : entries.contains f = true
  · have hmem : f ∈ entries := by simpa using hentry
    simp [List.find?, hmem, createProgram, hne]
  · rw [Bool.not_eq_true] at hentry
    have hmem : ¬ f ∈ entries := by
      intro hm
      have : entries.contains f = true := by simpa using hm
      rw [this] at hentry
      cases hentry
    cases hs : (env.programFor g).getSourceFile f with
    | none => simp [List.find?, hmem, createProgram, hs]
    | some sf =>
      have : env.fileExists f = true := hwf.memberOnDisk g f (by rw [hs]; rfl)
      rw [this] at hex
      exact absurd hex (by simp)

theorem getModule_none_append (env : Env) (hwf : EnvWF env)
    (ctx : DtsPluginContext) (f code g : String)
    (hnone : (getModule env ctx f code).1 = none) (hne : f ≠ g) :
    getModule env { ctx with programs := ctx.programs ++ [createProgram env g] } f code =
      (none, { ctx with programs := ctx.programs ++ [createProgram env g] }) := by
  rcases (getModule_none_iff env ctx f code).mp hnone with ⟨_, hfind, hex⟩
  have hfind' : findExistingProgram ctx.entries
      (ctx.programs ++ [createProgram env g]) f = none := by
    rw [findExistingProgram_append_single, hfind,
      findExistingProgram_create_other env hwf ctx.entries f g hne hex]
    rfl
  have hguard : ((ctx.programs ++ [createProgram env g]).isEmpty && dtsTest f) = false := by
    simp
  simp [getModule, hguard, hfind', hex]

theorem getModule_stable (env : Env) (hwf : EnvWF env)
    (ctx : DtsPluginContext) (f code : String) :
    getModule env ((getModule env ctx f code).2) f code =
      ((getModule env ctx f code).1, (getModule env ctx f code).2) := by
  rcases getModule_snd_cases env ctx f code with h | ⟨hfind, hex, hcreate⟩
  · rw [Prod.mk.eta, h]
  · rw [hcreate]
    exact getModule_after_create env hwf ctx f code hfind hex

theorem handleDtsFile_eq (env : Env) (ctx : DtsPluginContext) (id code : String) :
    handleDtsFile env ctx id code =
      (serveResult id (getModule env ctx id code).1, (getModule env ctx id code).2) := by
  rw [handleDtsFile]
  rcases h : getModule env ctx id code with ⟨m, c⟩
  cases m <;> simp [serveResult]

theorem treatTsAsDts_eq (env : Env) (ctx : DtsPluginContext) (id code : String) :
    treatTsAsDts env ctx id code =
      (serveResult (getDeclarationId id) (getModule env ctx (getDeclarationId id) code).1,
       (getModule env ctx (getDeclarationId id) code).2) := by
  rw [treatTsAsDts]
  rcases h : getModule env ctx (getDeclarationId id) code with ⟨m, c⟩
  cases m <;> simp [serveResult]

theorem generateDts_eq (env : Env) (ctx : DtsPluginContext) (id code : String) :
    generateDts env ctx id code =
      (genResult id (getModule env ctx id code).1, (getModule env ctx id code).2) := by
  rw [generateDts]
  rcases h : getModule env ctx id code with ⟨m, c⟩
  cases m with
  | none => simp [genResult]
  | some mm =>
    cases hsrc : mm.source <;> cases hprog : mm.program <;>
      (simp [genResult, hsrc, hprog]; (try (split <;> (try split) <;> rfl)))

theorem serveResult_eq_skip_iff (key : String) (o : Option ResolvedModule) :
    serveResult key o = .skip ↔ o = none := by
  cases o <;> simp [serveResult]

/-- C9: the transform decision machine is idempotent with respect to
shared-state mutation: under the faithfulness conditions on the compiler
environment, invoking `transform` twice in succession on the same file
identity with the same raw text (no interleaved requests) yields identical
output both times, even though the first invocation may have grown the
program pool. -/
theorem transform_idempotent (env : Env) (hwf : EnvWF env)
    (ctx : DtsPluginContext) (id code : String) :
    (transform env ((transform env ctx id code).2.1) id code).1 =
      (transform env ctx id code).1 := by
  by_cases h0 : (!tsTest id && !jsonTest id) = true
  · simp [transform, h0]
  · rw [Bool.not_eq_true] at h0
    by_cases hdts : dtsTest id = true
    · have hs := getModule_stable env hwf ctx id code
      simp [transform, h0, hdts, handleDtsFile_eq, hs]
    · rw [Bool.not_eq_true] at hdts
      by_cases hjson : jsonTest id = true
      · have hs := getModule_stable env hwf ctx id code
        simp [transform, h0, hdts, hjson, generateDts_eq, hs]
      · rw [Bool.not_eq_true] at hjson
        have hts : tsTest id = true := by
          cases hts0 : tsTest id with
          | true => rfl
          | false => rw [hts0, hjson] at h0; simp at h0
        by_cases hskip : (treatTsAsDts env ctx id code).1 = .skip
        · -- treat-as-declaration found nothing: fall back to generation
          have hnone : (getModule env ctx (getDeclarationId id) code).1 = none := by
            rw [treatTsAsDts_eq] at hskip
            exact (serveResult_eq_skip_iff _ _).mp hskip
          have hc1 : (treatTsAsDts env ctx id code).2 = ctx := by
            rw [treatTsAsDts_eq]
            rw [getModule_none_eq env ctx (getDeclarationId id) code hnone]
          rcases getModule_snd_cases env ctx id code with hsnd | ⟨hfind, hex, hcreate⟩
          · -- generation did not grow the pool: the whole invocation left the
            -- context unchanged, so the second invocation is literally the first
            have hctx : (transform env ctx id code).2.1 = ctx := by
              simp [transform, h0, hts, hdts, hjson, hskip, hc1, generateDts_eq, hsnd]
            rw [hctx]
          · -- generation created a program rooted at `id`
            have hne : getDeclarationId id ≠ id := getDeclarationId_ne hdts
            have hctx : (transform env ctx id code).2.1 =
                { ctx with programs := ctx.programs ++ [createProgram env id] } := by
              simp [transform, h0, hts, hdts, hjson, hskip, hc1, generateDts_eq, hcreate]
            have hnone' := getModule_none_append env hwf ctx (getDeclarationId id) code id hnone hne
            have hskip' : (treatTsAsDts env
                { ctx with programs := ctx.programs ++ [createProgram env id] } id code).1 = .skip := by
              rw [treatTsAsDts_eq, hnone']
              rfl
            have hc1' : (treatTsAsDts env
                { ctx with programs := ctx.programs ++ [createProgram env id] } id code).2 =
                { ctx with programs := ctx.programs ++ [createProgram env id] } := by
              rw [treatTsAsDts_eq, hnone']
            have hafter := getModule_after_create env hwf ctx id code hfind hex
            rw [hctx]
            simp [transform, h0, hts, hdts, hjson, hskip, hskip', hc1, hc1',
              generateDts_eq, hcreate, hafter]
        · -- treat-as-declaration succeeded: no generation, and resolving the
          -- declaration identity again is stable
          have hs := getModule_stable env hwf ctx (getDeclarationId id) code
          have htreat : treatTsAsDts env ((treatTsAsDts env ctx id code).2) id code =
              ((treatTsAsDts env ctx id code).1, (treatTsAsDts env ctx id code).2) := by
            rw [treatTsAsDts_eq, treatTsAsDts_eq, hs]
          have hctx : (transform env ctx id code).2.1 = (treatTsAsDts env ctx id code).2 := by
            simp [transform, h0, hts, hdts, hjson, hskip]
          rw [hctx]
          simp [transform, h0, hts, hdts, hjson, hskip, htreat]

/-- C8: the module resolver never raises: every request terminates with a
resolution record or a not-found result, and not-found is returned exactly
when the file matched no branch of the algorithm (fast path false, no
existing program matched) and does not exist on disk. -/
theorem getModule_total_and_notfound (env : Env) (ctx : DtsPluginContext)
    (f code : String) :
    ((getModule env ctx f code).1 = none ∨
      ∃ m, (getModule env ctx f code).1 = some m) ∧
    ((getModule env ctx f code).1 = none ↔
      ((ctx.programs.isEmpty && dtsTest f) = false ∧
       findExistingProgram ctx.entries ctx.programs f = none ∧
       env.fileExists f = false)) := by
  refine ⟨?_, getModule_none_iff env ctx f code⟩
  cases h : (getModule env ctx f code).1 with
  | none => exact Or.inl rfl
  | some m => exact Or.inr ⟨m, rfl⟩

/-- C2: the existing-unit search scans the pool in creation order and
returns the first unit matching the spec's rule (entry points match only
units rooting them; other files match units containing them as non-external
members); in particular a file that is both an entry point and a member of
another unit is only ever served by a unit that roots it. -/
theorem findExistingProgram_follows_spec (entries : List String)
    (programs : List TsProgram) (f : String) :
    findExistingProgram entries programs f = programs.find? (specMatches entries f) ∧
    ∀ p, findExistingProgram entries programs f = some p →
      entries.contains f = true → p.rootFileNames.contains f = true := by
  constructor
  · rfl
  · intro p hp hentry
    have hpred := List.find?_some hp
    have hmem : f ∈ entries := by simpa using hentry
    simpa [hmem] using hpred

/-- C1: once a program rooted at an entry file exists in the pool, a
resolution request for that entry is served by an existing rooting program
and does not grow the pool: no second program is ever created for the same
entry identity. -/
theorem entry_served_by_rooting_program (env : Env) (ctx : DtsPluginContext)
    (f code : String)
    (hentry : ctx.entries.contains f = true)
    (hrooted : ∃ p ∈ ctx.programs, p.rootFileNames.contains f = true) :
    (getModule env ctx f code).2 = ctx ∧
    ∃ p ∈ ctx.programs, p.rootFileNames.contains f = true ∧
      (getModule env ctx f code).1 = some (moduleFromProgram p f) := by
  have hmem : f ∈ ctx.entries := by simpa using hentry
  obtain ⟨p, hp, hr⟩ := hrooted
  have hsome : (findExistingProgram ctx.entries ctx.programs f).isSome := by
    rw [findExistingProgram]
    refine List.find?_isSome.mpr ⟨p, hp, ?_⟩
    simpa [hmem] using hr
  obtain ⟨q, hq⟩ := Option.isSome_iff_exists.mp hsome
  have hqmem : q ∈ ctx.programs := by
    rw [findExistingProgram] at hq
    exact List.mem_of_find?_eq_some hq
  have hqroot : q.rootFileNames.contains f = true := by
    rw [findExistingProgram] at hq
    have := List.find?_some hq
    simpa [hmem] using this
  have := getModule_found env ctx f code q hq
  rw [this]
  exact ⟨rfl, q, hqmem, hqroot, rfl⟩

/-- C3: external-library fast path: when no unit matched, the file exists on
disk, it matches the declaration pattern, the pool is non-empty and some
existing unit holds the file as an external-dependency member, resolution
returns the raw text with no owning unit and leaves the context unchanged;
consequently resolving any number of such files never grows the pool. -/
theorem external_fastpath_no_growth (env : Env) (ctx : DtsPluginContext)
    (f code : String)
    (hfind : findExistingProgram ctx.entries ctx.programs f = none)
    (hex : env.fileExists f = true)
    (hdts : dtsTest f = true)
    (hne : ctx.programs.isEmpty = false)
    (hext : someProgramHasExternal ctx.programs f = true) :
    getModule env ctx f code =
      (some { code := code, source := none, program := none }, ctx) ∧
    ∀ files : List (String × String),
      (∀ fc ∈ files,
        findExistingProgram ctx.entries ctx.programs fc.1 = none ∧
        env.fileExists fc.1 = true ∧ dtsTest fc.1 = true ∧
        someProgramHasExternal ctx.programs fc.1 = true) →
      resolveAll env ctx files = ctx := by
  refine ⟨getModule_extFastpath env ctx f code hfind hex hdts hne hext, ?_⟩
  intro files
  induction files with
  | nil => intro _; rfl
  | cons fc rest ih =>
    intro hall
    have h1 := hall fc (by simp)
    have hstep : (getModule env ctx fc.1 fc.2).2 = ctx := by
      rw [getModule_extFastpath env ctx fc.1 fc.2 h1.1 h1.2.1 h1.2.2.1 hne h1.2.2.2]
    show resolveAll env ((getModule env ctx fc.1 fc.2).2) rest = ctx
    rw [hstep]
    exact ih fun x hx => hall x (by simp [hx])

theorem transform_preserves_empty_pool (env : Env) (ctx : DtsPluginContext)
    (id code : String) (hempty : ctx.programs = []) (hdts : dtsTest id = true) :
    ((transform env ctx id code).2.1).programs = [] := by
  by_cases h0 : (!tsTest id && !jsonTest id) = true
  · simp [transform, h0, hempty]
  · rw [Bool.not_eq_true] at h0
    have hfast := getModule_fastpath env ctx id code hempty hdts
    simp [transform, h0, hdts, handleDtsFile_eq, hfast, hempty]

theorem transformAll_empty_pool (env : Env) (ctx : DtsPluginContext)
    (reqs : List (String × String)) (hempty : ctx.programs = [])
    (h : ∀ r ∈ reqs, dtsTest r.1 = true) :
    (transformAll env ctx reqs).programs = [] := by
  induction reqs generalizing ctx with
  | nil => simpa [transformAll] using hempty
  | cons r rest ih =>
    have h1 : ((transform env ctx r.1 r.2).2.1).programs = [] :=
      transform_preserves_empty_pool env ctx r.1 r.2 hempty (h r (by simp))
    show (transformAll env ((transform env ctx r.1 r.2).2.1) rest).programs = []
    exact ih _ h1 fun x hx => h x (List.mem_cons_of_mem _ hx)

/-- C4: zero-program fast path: with an empty pool, a request for a file
matching the declaration pattern returns the caller-supplied raw text with
no owning unit and no source handle and leaves the pool empty; a session
whose requests are all declaration files keeps the pool empty throughout. -/
theorem zero_program_fastpath (env : Env) (ctx : DtsPluginContext)
    (f code : String) (hempty : ctx.programs = []) (hdts : dtsTest f = true) :
    getModule env ctx f code =
      (some { code := code, source := none, program := none }, ctx) ∧
    ∀ reqs : List (String × String), (∀ r ∈ reqs, dtsTest r.1 = true) →
      (transformAll env ctx reqs).programs = [] := by
  exact ⟨getModule_fastpath env ctx f code hempty hdts,
    fun reqs h => transformAll_empty_pool env ctx reqs hempty h⟩

/-- C10: the zero-program fast path performs no disk-existence check: with
an empty pool a declaration-pattern request returns the raw text even when
the file does not exist on disk; hence with an empty pool, treat-as-
declaration for a source file always succeeds, forwarding the original
source text keyed by the derived declaration identity, and generation is
never attempted. -/
theorem zero_program_no_disk_check (env : Env) (ctx : DtsPluginContext)
    (id code : String) (hempty : ctx.programs = []) :
    (dtsTest id = true → env.fileExists id = false →
      getModule env ctx id code =
        (some { code := code, source := none, program := none }, ctx)) ∧
    (tsTest id = true → dtsTest id = false → jsonTest id = false →
      transform env ctx id code =
        (.output code (getDeclarationId id), ctx, [.treatAsDts])) := by
  constructor
  · intro hdts _
    exact getModule_fastpath env ctx id code hempty hdts
  · intro hts hdts hjson
    have hfast := getModule_fastpath env ctx (getDeclarationId id) code hempty
      (dtsTest_getDeclarationId id)
    have htreat : treatTsAsDts env ctx id code =
        (.output code (getDeclarationId id), ctx) := by
      rw [treatTsAsDts_eq, hfast]
      rfl
    simp [transform, hts, hdts, hjson, htreat]

/-- C5: for a source file (neither declaration nor JSON) the machine first
attempts treat-as-declaration on the derived declaration identity;
generate-from-source is attempted exactly when that resolution reports
not-found, and never when it succeeds. -/
theorem fallback_ordering (env : Env) (ctx : DtsPluginContext)
    (id code : String)
    (hts : tsTest id = true) (hdts : dtsTest id = false)
    (hjson : jsonTest id = false) :
    ((transform env ctx id code).2.2).head? = some Strategy.treatAsDts ∧
    (Strategy.generate ∈ (transform env ctx id code).2.2 ↔
      (getModule env ctx (getDeclarationId id) code).1 = none) ∧
    ((getModule env ctx (getDeclarationId id) code).1 = none →
      (transform env ctx id code).1 = (generateDts env ctx id code).1) := by
  by_cases hn : (getModule env ctx (getDeclarationId id) code).1 = none
  · have hskip : (treatTsAsDts env ctx id code).1 = .skip := by
      rw [treatTsAsDts_eq]
      exact (serveResult_eq_skip_iff _ _).mpr hn
    have hc1 : (treatTsAsDts env ctx id code).2 = ctx := by
      rw [treatTsAsDts_eq, getModule_none_eq env ctx (getDeclarationId id) code hn]
    refine ⟨?_, ?_, ?_⟩ <;>
      simp [transform, hts, hdts, hjson, hskip, hc1, hn]
  · obtain ⟨m, hm⟩ := Option.ne_none_iff_exists'.mp hn
    have hskip : (treatTsAsDts env ctx id code).1 ≠ .skip := by
      rw [treatTsAsDts_eq, hm]
      simp [serveResult]
    refine ⟨?_, ?_, ?_⟩ <;>
      simp [transform, hts, hdts, hjson, hskip, hn, hm]

/-- C6: when a unit's emit for a file is skipped with error-category
diagnostics present, generation surfaces the full diagnostic text and
raises a fatal error: the result is the fatal outcome, never a declaration
output and never a silent skip. -/
theorem emit_errors_fatal (env : Env) (ctx : DtsPluginContext)
    (id code : String) (m : ResolvedModule) (src : SourceFile) (prog : TsProgram)
    (hm : (getModule env ctx id code).1 = some m)
    (hsrc : m.source = some src) (hprog : m.program = some prog)
    (hskip : (prog.emit src).emitSkipped = true)
    (herr : ((prog.emit src).diagnostics.filter fun d =>
      d.category == DiagnosticCategory.error) ≠ []) :
    (generateDts env ctx id code).1 =
      .fatal (formatDiagnostics ((prog.emit src).diagnostics.filter fun d =>
          d.category == DiagnosticCategory.error))
        "Failed to compile. Check the logs above." ∧
    (∀ t k, (generateDts env ctx id code).1 ≠ TransformResult.output t k) ∧
    (generateDts env ctx id code).1 ≠ TransformResult.skip := by
  have hfst : (generateDts env ctx id code).1 = genResult id (some m) := by
    rw [generateDts_eq, hm]
  have hgen : genResult id (some m) =
      .fatal (formatDiagnostics ((prog.emit src).diagnostics.filter fun d =>
          d.category == DiagnosticCategory.error))
        "Failed to compile. Check the logs above." := by
    have hne : (((prog.emit src).diagnostics.filter fun d =>
        d.category == DiagnosticCategory.error).isEmpty) = false := by
      rw [← Bool.not_eq_true, List.isEmpty_iff]
      exact herr
    simp [genResult, hsrc, hprog, hskip, hne]
  rw [hfst, hgen]
  refine ⟨rfl, ?_, ?_⟩ <;> simp

/-- C7: the import classifier evaluates its policy in fixed order: a failed
resolution is reported unresolved; an external module of a force-included
package resolves to its absolute identity; otherwise with respect-external
off an external module is marked external; otherwise the absolute identity
is returned. -/
theorem resolveId_policy_order (env : Env) (ctx : DtsPluginContext)
    (source imp : String) :
    (env.resolveModuleName source (imp.map fun c => if c = '\\' then '/' else c) = none →
      resolveId env ctx source (some imp) = (.unresolved, ctx)) ∧
    (∀ rm, env.resolveModuleName source
        (imp.map fun c => if c = '\\' then '/' else c) = some rm →
      (forceInclude ctx.resolvedOptions rm = true →
        resolveId env ctx source (some imp) =
          (.resolved (env.pathResolve rm.resolvedFileName) false, ctx)) ∧
      (forceInclude ctx.resolvedOptions rm = false →
       ctx.resolvedOptions.respectExternal = false →
       rm.isExternalLibraryImport = true →
        resolveId env ctx source (some imp) = (.resolved source true, ctx)) ∧
      (forceInclude ctx.resolvedOptions rm = false →
       (!ctx.resolvedOptions.respectExternal && rm.isExternalLibraryImport) = false →
        resolveId env ctx source (some imp) =
          (.resolved (env.pathResolve rm.resolvedFileName) false, ctx))) := by
  constructor
  · intro hnone
    simp [resolveId, hnone]
  · intro rm hrm
    refine ⟨?_, ?_, ?_⟩
    · intro hforce
      simp [resolveId, hrm, hforce]
    · intro hforce hresp hextlib
      simp [resolveId, hrm, hforce, hresp, hextlib]
    · intro hforce hb
      simp [resolveId, hrm, hforce, hb]

theorem wEnvWf_wf : EnvWF wEnvWf := by
  constructor
  · intro f h
    simp only [wEnvWf] at h ⊢
    simp [h]
  · intro f g h
    by_cases hc : (g == "/a.ts") = true
    · exact hc
    · rw [Bool.not_eq_true] at hc
      simp [wEnvWf, hc] at h
      exact absurd h (by simpa using hc)
  · intro f
    rfl

/-- Witness for C1 at a concrete input: the pool already holds the program
rooted at the entry `/a.ts`. -/
theorem entry_served_by_rooting_program_witness :
    wCtxA.entries.contains "/a.ts" = true ∧
    (∃ p ∈ wCtxA.programs, p.rootFileNames.contains "/a.ts" = true) ∧
    ((getModule wEnvWf wCtxA "/a.ts" "raw").2 = wCtxA ∧
      ∃ p ∈ wCtxA.programs, p.rootFileNames.contains "/a.ts" = true ∧
        (getModule wEnvWf wCtxA "/a.ts" "raw").1 =
          some (moduleFromProgram p "/a.ts")) :=
  ⟨by decide, ⟨createProgram wEnvWf "/a.ts", by simp [wCtxA], by decide⟩,
   entry_served_by_rooting_program wEnvWf wCtxA "/a.ts" "raw" (by decide)
     ⟨createProgram wEnvWf "/a.ts", by simp [wCtxA], by decide⟩⟩

/-- Witness for C3 at a concrete input: `/ext/x.d.ts` is an external member
of the only pooled program. -/
theorem external_fastpath_no_growth_witness :
    findExistingProgram wCtxExt.entries wCtxExt.programs "/ext/x.d.ts" = none ∧
    wEnvExt.fileExists "/ext/x.d.ts" = true ∧
    dtsTest "/ext/x.d.ts" = true ∧
    wCtxExt.programs.isEmpty = false ∧
    someProgramHasExternal wCtxExt.programs "/ext/x.d.ts" = true ∧
    (getModule wEnvExt wCtxExt "/ext/x.d.ts" "raw" =
      (some { code := "raw", source := none, program := none }, wCtxExt) ∧
     ∀ files : List (String × String),
      (∀ fc ∈ files,
        findExistingProgram wCtxExt.entries wCtxExt.programs fc.1 = none ∧
        wEnvExt.fileExists fc.1 = true ∧ dtsTest fc.1 = true ∧
        someProgramHasExternal wCtxExt.programs fc.1 = true) →
      resolveAll wEnvExt wCtxExt files = wCtxExt) :=
  ⟨rfl, by decide, by decide, rfl, rfl,
   external_fastpath_no_growth wEnvExt wCtxExt "/ext/x.d.ts" "raw" rfl
     (by decide) (by decide) rfl rfl⟩

/-- Witness for C4 at a concrete input: an empty pool and the declaration
file `/i.d.ts`. -/
theorem zero_program_fastpath_witness :
    wCtx0.programs = [] ∧ dtsTest "/i.d.ts" = true ∧
    (getModule wEnvWf wCtx0 "/i.d.ts" "X" =
      (some { code := "X", source := none, program := none }, wCtx0) ∧
     ∀ reqs : List (String × String), (∀ r ∈ reqs, dtsTest r.1 = true) →
      (transformAll wEnvWf wCtx0 reqs).programs = []) :=
  ⟨rfl, by decide,
   zero_program_fastpath wEnvWf wCtx0 "/i.d.ts" "X" rfl (by decide)⟩

/-- Witness for C5 at a concrete input: the source file `/a.ts`. -/
theorem fallback_ordering_witness :
    tsTest "/a.ts" = true ∧ dtsTest "/a.ts" = false ∧ jsonTest "/a.ts" = false ∧
    (((transform wEnvWf wCtx0 "/a.ts" "Y").2.2).head? = some Strategy.treatAsDts ∧
     (Strategy.generate ∈ (transform wEnvWf wCtx0 "/a.ts" "Y").2.2 ↔
       (getModule wEnvWf wCtx0 (getDeclarationId "/a.ts") "Y").1 = none) ∧
     ((getModule wEnvWf wCtx0 (getDeclarationId "/a.ts") "Y").1 = none →
       (transform wEnvWf wCtx0 "/a.ts" "Y").1 =
         (generateDts wEnvWf wCtx0 "/a.ts" "Y").1)) :=
  ⟨by decide, by decide, by decide,
   fallback_ordering wEnvWf wCtx0 "/a.ts" "Y" (by decide) (by decide) (by decide)⟩

/-- Witness for C6 at a concrete input: the pooled program's emit for
`/e.ts` is skipped with one error diagnostic. -/
theorem emit_errors_fatal_witness :
    (getModule wEnvWf wCtxErr "/e.ts" "c").1 =
      some (moduleFromProgram wProgErr "/e.ts") ∧
    (moduleFromProgram wProgErr "/e.ts").source = some (wSourceFile "/e.ts") ∧
    (moduleFromProgram wProgErr "/e.ts").program = some wProgErr ∧
    (wProgErr.emit (wSourceFile "/e.ts")).emitSkipped = true ∧
    ((wProgErr.emit (wSourceFile "/e.ts")).diagnostics.filter fun d =>
      d.category == DiagnosticCategory.error) ≠ [] ∧
    ((generateDts wEnvWf wCtxErr "/e.ts" "c").1 =
      .fatal (formatDiagnostics
          ((wProgErr.emit (wSourceFile "/e.ts")).diagnostics.filter fun d =>
            d.category == DiagnosticCategory.error))
        "Failed to compile. Check the logs above." ∧
     (∀ t k, (generateDts wEnvWf wCtxErr "/e.ts" "c").1 ≠
        TransformResult.output t k) ∧
     (generateDts wEnvWf wCtxErr "/e.ts" "c").1 ≠ TransformResult.skip) :=
  ⟨rfl, rfl, rfl, rfl, by decide,
   emit_errors_fatal wEnvWf wCtxErr "/e.ts" "c"
     (moduleFromProgram wProgErr "/e.ts") (wSourceFile "/e.ts") wProgErr
     rfl rfl rfl rfl (by decide)⟩

/-- Witness for C9 at a concrete input: transforming the entry source file
`/a.ts` twice in the well-formed environment. -/
theorem transform_idempotent_witness :
    (transform wEnvWf ((transform wEnvWf wCtx0 "/a.ts" "Z").2.1) "/a.ts" "Z").1 =
      (transform wEnvWf wCtx0 "/a.ts" "Z").1 :=
  transform_idempotent wEnvWf wEnvWf_wf wCtx0 "/a.ts" "Z"

/-- Witness for C10 at a concrete input: an empty pool and the source file
`/a.ts`. -/
theorem zero_program_no_disk_check_witness :
    wCtx0.programs = [] ∧
    ((dtsTest "/a.ts" = true → wEnvWf.fileExists "/a.ts" = false →
      getModule wEnvWf wCtx0 "/a.ts" "W" =
        (some { code := "W", source := none, program := none }, wCtx0)) ∧
     (tsTest "/a.ts" = true → dtsTest "/a.ts" = false → jsonTest "/a.ts" = false →
      transform wEnvWf wCtx0 "/a.ts" "W" =
        (.output "W" (getDeclarationId "/a.ts"), wCtx0, [.treatAsDts]))) :=
  ⟨rfl, zero_program_no_disk_check wEnvWf wCtx0 "/a.ts" "W" rfl⟩

end RollupDts
